import Mathlib

/-!
Shallow embedding of the text-highlight-demo repository.

Strings are modelled as `List Char` (Python `str`), numbers that the Python
code handles as `int`/`float` are modelled as `Int`/`ℚ`, and fallible code
returns `Except`.  The two cores embedded here are:

* `make_markup` / `rgb_to_hex` from `src/pango_feature_demos.py`
  (the Pango markup builder with the HTML escaping from `html.escape`);
* `build_ffmpeg_command` together with `EASING_MAP` from
  `src/video_pipeline.py` (the ffmpeg argument-list synthesizer).

Python decimal rendering of numbers is abstracted by explicit digit
functions (`natDec`, `intDec`, `fmtQ`); file-system path resolution is an
I/O concern outside the embedded cores, so the already-resolved input and
output paths are fields of the configuration record.
-/

namespace Demo

/-- The five characters that `html.escape(s)` (with `quote=True`, the
default, as used by the source) rewrites, plus helpers.  The apostrophe is
written via its code point 39. -/
def ampChar : Char := '&'

def ltChar : Char := '<'

def gtChar : Char := '>'

def dqChar : Char := '"'

def sqChar : Char := Char.ofNat 39

/-- Per-character action of Python `html.escape` (quote=True): `&`, `<`,
`>`, `"` and the apostrophe become entities, all other characters are kept.
The sequential `str.replace` calls of the CPython implementation are
equivalent to this single pass because `&` is replaced first and the
replacements of the later characters are never reprocessed. -/
def escChar (c : Char) : List Char :=
  if c = ampChar then "&amp;".data
  else if c = ltChar then "&lt;".data
  else if c = gtChar then "&gt;".data
  else if c = dqChar then "&quot;".data
  else if c = sqChar then "&#x27;".data
  else [c]

/-- `html.escape` over a whole string. -/
def esc : List Char → List Char
  | [] => []
  | c :: l => escChar c ++ esc l

/-- HTML unescaping restricted to the five entities `html.escape`
produces; every other character (including an ampersand that does not
start one of these entities) is passed through unchanged. -/
def unesc : List Char → List Char
  | [] => []
  | c :: l =>
    if c = ampChar then
      if "amp;".data.isPrefixOf l then ampChar :: unesc (l.drop 4)
      else if "lt;".data.isPrefixOf l then ltChar :: unesc (l.drop 3)
      else if "gt;".data.isPrefixOf l then gtChar :: unesc (l.drop 3)
      else if "quot;".data.isPrefixOf l then dqChar :: unesc (l.drop 5)
      else if "#x27;".data.isPrefixOf l then sqChar :: unesc (l.drop 5)
      else c :: unesc l
    else c :: unesc l
  termination_by m => m.length
  decreasing_by all_goals (simp only [List.length_drop, List.length_cons]; omega)

/-- Index of the first occurrence of `p` in `s`, or `none` when `p` is not
a substring: this is the common core of Python `p in s` (`isSome`) and
`s.index(p)` (the value), both of which scan for the first occurrence. -/
def strFind (s p : List Char) : Option Nat :=
  if p.isPrefixOf s then some 0
  else
    match s with
    | [] => none
    | _ :: t => (strFind t p).map (· + 1)

/-- One decimal or lower-case hexadecimal digit, as printed by Python. -/
def digitChar (d : Nat) : Char :=
  match d with
  | 0 => '0'
  | 1 => '1'
  | 2 => '2'
  | 3 => '3'
  | 4 => '4'
  | 5 => '5'
  | 6 => '6'
  | 7 => '7'
  | 8 => '8'
  | 9 => '9'
  | 10 => 'a'
  | 11 => 'b'
  | 12 => 'c'
  | 13 => 'd'
  | 14 => 'e'
  | 15 => 'f'
  | _ => '0'

/-- Digits of `n` in base `b` (for `b ≥ 2`), most significant first,
written with structural recursion on a fuel argument so that the kernel
can evaluate it; `fuel = n` always suffices because `n / b < n` shrinks
strictly while `n ≥ b`. -/
def digitsAux (b : Nat) : Nat → Nat → List Char
  | _, 0 => [digitChar 0]
  | 0, n => [digitChar n]
  | fuel + 1, n =>
    if n < b then [digitChar n]
    else digitsAux b fuel (n / b) ++ [digitChar (n % b)]

/-- Decimal digits of a natural number (Python `str(n)` for `n ≥ 0`). -/
def natDec (n : Nat) : List Char :=
  digitsAux 10 n n

/-- Hexadecimal digits of a natural number (Python `"%x" % n` for `n ≥ 0`). -/
def natHex (n : Nat) : List Char :=
  digitsAux 16 n n

/-- Python `str(i)` for an integer. -/
def intDec (i : Int) : List Char :=
  if i < 0 then '-' :: natDec i.natAbs else natDec i.toNat

/-- Python `format(n, "02x")` for `n ≥ 0`: zero-padded to width two. -/
def hexPad2 (n : Nat) : List Char :=
  if (natHex n).length < 2 then '0' :: natHex n else natHex n

/-- Python `f"{i:02x}"`: for negative `i` the sign counts towards the
field width, so `-5` prints as `-5` and `-16` as `-10`. -/
def hexByte (i : Int) : List Char :=
  if i < 0 then '-' :: natHex i.natAbs else hexPad2 i.toNat

/-- Python `int(q)`: truncation toward zero. -/
def pyTrunc (q : ℚ) : Int :=
  if 0 ≤ q then q.floor else -(-q).floor

/-- `rgb_to_hex` (src/pango_feature_demos.py line 88, identical code at
src/deprecated/highlight_sentence_cairo.py line 83):
`"#" + "".join(f"{int(c*255):02x}" for c in rgb)`. -/
def rgb_to_hex (rgb : ℚ × ℚ × ℚ) : List Char :=
  '#' :: (hexByte (pyTrunc (rgb.1 * 255))
    ++ hexByte (pyTrunc (rgb.2.1 * 255))
    ++ hexByte (pyTrunc (rgb.2.2 * 255)))

/-- Module-level default from src/pango_feature_demos.py line 71. -/
def TEXT_COLOR : ℚ × ℚ × ℚ := (1, 1, 1)

/-- Module-level default from src/pango_feature_demos.py line 72. -/
def DEFAULT_HIGHLIGHT_COLOR : ℚ × ℚ × ℚ := (1/2, 1, 1)

/-- Module-level default from src/pango_feature_demos.py line 73. -/
def BASE_FONT_FAMILY : List Char := "Arial".data

/-- Module-level default from src/pango_feature_demos.py line 74. -/
def BASE_FONT_SIZE_PT : ℚ := 50

/-- One `key='value'` fragment as interpolated by the f-strings of
`make_markup` (the attribute value is inserted verbatim, not escaped). -/
def renderAttr (k v : List Char) : List Char :=
  k ++ ('=' :: sqChar :: (v ++ [sqChar]))

/-- Python `" ".join(...)` / `",".join(...)`. -/
def joinSep (sep : List Char) : List (List Char) → List Char
  | [] => []
  | [x] => x
  | x :: xs => x ++ sep ++ joinSep sep xs

/-- Whether the Python dict `m` (modelled as an insertion-ordered
association list) has key `k`. -/
def hasKey (m : List (List Char × List Char)) (k : List Char) : Bool :=
  m.any (fun kv => kv.1 == k)

/-- Replace the value stored under `k`, keeping its position. -/
def setKey (m : List (List Char × List Char)) (k v : List Char) :
    List (List Char × List Char) :=
  m.map (fun kv => if kv.1 == k then (kv.1, v) else kv)

/-- Python `d[k] = v`: overwrite in place if present, else append. -/
def dictInsert (m : List (List Char × List Char)) (k v : List Char) :
    List (List Char × List Char) :=
  if hasKey m k then setKey m k v else m ++ [(k, v)]

/-- Python `base.update(extra)` on insertion-ordered dicts. -/
def dictUpdate (m extra : List (List Char × List Char)) :
    List (List Char × List Char) :=
  extra.foldl (fun acc kv => dictInsert acc kv.1 kv.2) m

/-- The attribute dict of the highlight span: `{"foreground": hex}` then
`attrs.update(extra_attrs)` (src/pango_feature_demos.py lines 115-119). -/
def highlightAttrs (extra : List (List Char × List Char)) (hc : ℚ × ℚ × ℚ) :
    List (List Char × List Char) :=
  dictUpdate [("foreground".data, rgb_to_hex hc)] extra

/-- `attrs_str` and `highlight_open` (src/pango_feature_demos.py
lines 121-122): `f"<span {attrs_str}>"`. -/
def highlight_open (extra : List (List Char × List Char)) (hc : ℚ × ℚ × ℚ) :
    List Char :=
  "<span ".data
    ++ joinSep [' '] ((highlightAttrs extra hc).map (fun kv => renderAttr kv.1 kv.2))
    ++ [gtChar]

/-- `base_span_open` (src/pango_feature_demos.py line 113):
`f"<span font_family='{BASE_FONT_FAMILY}' size='{int(font_size_pt*1024)}'
foreground='{rgb_to_hex(TEXT_COLOR)}'>"`. -/
def base_span_open (fs : ℚ) : List Char :=
  "<span ".data
    ++ renderAttr "font_family".data BASE_FONT_FAMILY
    ++ [' ']
    ++ renderAttr "size".data (intDec (pyTrunc (fs * 1024)))
    ++ [' ']
    ++ renderAttr "foreground".data (rgb_to_hex TEXT_COLOR)
    ++ [gtChar]

/-- `make_markup` (src/pango_feature_demos.py lines 92-132).  The raise of
`ValueError("highlight phrase not found in sentence")` is modelled as
`Except.error`; the `None` defaults of the keyword arguments are the
`Option` arguments. -/
def make_markup (sentence phrase : List Char)
    (extra_attrs : List (List Char × List Char))
    (highlight_color : Option (ℚ × ℚ × ℚ))
    (font_size_pt : Option ℚ) : Except (List Char) (List Char) :=
  match strFind sentence phrase with
  | none => .error "highlight phrase not found in sentence".data
  | some start =>
    let stop := start + phrase.length
    let hc := highlight_color.getD DEFAULT_HIGHLIGHT_COLOR
    let fs := font_size_pt.getD BASE_FONT_SIZE_PT
    .ok (base_span_open fs
      ++ esc (sentence.take start)
      ++ highlight_open extra_attrs hc
      ++ esc phrase
      ++ "</span>".data
      ++ esc (sentence.drop stop)
      ++ "</span>".data)

/-! ## Video pipeline (src/video_pipeline.py) -/

/-- `EASING_MAP` (src/video_pipeline.py lines 26-31). -/
def EASING_MAP : List (List Char × List Char) :=
  [("linear".data, "linear".data),
   ("easein".data, "quadratic".data),
   ("easeout".data, "quadratic".data),
   ("easeinout".data, "cubic".data)]

/-- Python `d.get(k, default)` on a string-keyed dict. -/
def dictGet (m : List (List Char × List Char)) (k dflt : List Char) : List Char :=
  match m.lookup k with
  | some v => v
  | none => dflt

/-- Rendering of a rational into the argument strings.  Python prints its
numbers in decimal; the embedding only needs a definite, injective textual
image of each value, so the reduced numerator/denominator form is used. -/
def fmtQ (q : ℚ) : List Char :=
  if q.den = 1 then intDec q.num else intDec q.num ++ "/".data ++ natDec q.den

/-- Python `str(width)` where `width` is `cfg.get("width")`: an absent key
prints as `None`. -/
def optIntStr (o : Option Int) : List Char :=
  match o with
  | none => "None".data
  | some i => intDec i

/-- The configuration slice of `config_video.yml` read by
`build_ffmpeg_command`.  `png` and `output_video` are the already resolved
input/output path strings (path existence checks and the latest-file
discovery fallback are I/O outside the embedded core); every `cfg.get`
with a default is modelled by an `Option` field read with `getD`. -/
structure VideoConfig where
  png : List Char
  output_video : List Char
  hw_accel : Bool
  width : Option Int
  height : Option Int
  fps : Option ℚ
  total_duration : Option ℚ
  fade_in_duration : Option ℚ
  fade_out_duration : Option ℚ
  easing_in : Option (List Char)
  easing_out : Option (List Char)
  codec : Option (List Char)

/-- `build_ffmpeg_command` (src/video_pipeline.py lines 41-102), after the
input path has been resolved. -/
def build_ffmpeg_command (cfg : VideoConfig) : List (List Char) :=
  let use_hw := cfg.hw_accel
  let fps := cfg.fps.getD 30
  let duration := cfg.total_duration.getD 10
  let fade_in := cfg.fade_in_duration.getD 1.5
  let fade_out := cfg.fade_out_duration.getD 1.5
  let easing_in := dictGet EASING_MAP (cfg.easing_in.getD "linear".data) "linear".data
  let easing_out := dictGet EASING_MAP (cfg.easing_out.getD "linear".data) "linear".data
  let start_out := duration - fade_out - 1 / fps
  let vf_parts := [
    "scale=".data ++ optIntStr cfg.width ++ ":".data ++ optIntStr cfg.height,
    "fade=t=in:st=0:d=".data ++ fmtQ fade_in ++ ":alpha=1".data,
    "fade=t=out:st=".data ++ fmtQ start_out ++ ":d=".data ++ fmtQ fade_out ++ ":alpha=1".data]
  let vf := joinSep ",".data vf_parts
  let codec0 := cfg.codec.getD "libx265".data
  let codec1 := if codec0 = "vp9alpha".data then "libvpx-vp9".data else codec0
  let codec := if use_hw ∧ codec1 = "libx265".data then "hevc_videotoolbox".data else codec1
  ["ffmpeg".data, "-y".data,
   "-loop".data, "1".data,
   "-i".data, cfg.png,
   "-t".data, fmtQ duration,
   "-vf".data, vf,
   "-c:v".data, codec,
   "-pix_fmt".data, "yuva420p".data,
   "-r".data, fmtQ fps,
   cfg.output_video]

/-- Modelled from the spec (section 4.2 codec selection policy), for the
refinement comparison of the codec rule: "alias resolution first, then
hardware substitution only if the resolved name still matches the default
software identifier". -/
def specCodecRule (cfg : VideoConfig) : List Char :=
  let resolved :=
    if cfg.codec.getD "libx265".data = "vp9alpha".data then "libvpx-vp9".data
    else cfg.codec.getD "libx265".data
  if cfg.hw_accel ∧ resolved = "libx265".data then "hevc_videotoolbox".data else resolved

/-- Modelled from the spec (section 4.1): color conversion via
"round(channel × 255) per channel", for comparison against the
implementation `rgb_to_hex`.  `round` is round-half-up; at the channel
values reachable here it agrees with Python round-half-even. -/
def rgbToHexRound (rgb : ℚ × ℚ × ℚ) : List Char :=
  '#' :: (hexByte (round (rgb.1 * 255))
    ++ hexByte (round (rgb.2.1 * 255))
    ++ hexByte (round (rgb.2.2 * 255)))

/-- The concrete configuration of spec section 8 (width 640, height 360,
fps 30, duration 1, fades 0.1, codec omitted), with the hardware flag as a
parameter. -/
def cfgDemo (hw : Bool) : VideoConfig where
  png := "demo.png".data
  output_video := "out.mp4".data
  hw_accel := hw
  width := some 640
  height := some 360
  fps := some 30
  total_duration := some 1
  fade_in_duration := some (1/10)
  fade_out_duration := some (1/10)
  easing_in := none
  easing_out := none
  codec := none

/-- A configuration whose fade durations together exceed the total
duration (1 second total, 6 + 6 seconds of fades). -/
def cfgOverlong : VideoConfig where
  png := "demo.png".data
  output_video := "out.mp4".data
  hw_accel := false
  width := some 640
  height := some 360
  fps := some 30
  total_duration := some 1
  fade_in_duration := some 6
  fade_out_duration := some 6
  easing_in := none
  easing_out := none
  codec := none

/-! ## A well-formedness checker for the produced markup

`scan` walks a markup string as a bracket machine over `span` tags:
`text` mode is ordinary character data (only the five entities produced by
`html.escape` may follow a raw ampersand, raw `<` may only open
`<span ...>` or close `</span>`, raw `>` is forbidden), `tag` mode is the
inside of an opening tag (an apostrophe enters an attribute value), and
`attr` mode is the inside of a quoted attribute value (which must not
contain `<`, `>` or a raw ampersand).  The counter tracks the number of
currently open spans; a string is well formed when the walk succeeds and
ends at depth zero. -/

inductive ScanMode where
  | text
  | tag
  | attr

/-- The markup scanner. -/
def scan : ScanMode → Nat → List Char → Bool
  | .text, d, [] => d == 0
  | .text, d, c :: cs =>
    if c = ltChar then
      if "/span>".data.isPrefixOf cs then
        match d with
        | 0 => false
        | Nat.succ d2 => scan .text d2 (cs.drop 6)
      else if "span ".data.isPrefixOf cs then scan .tag (d + 1) (cs.drop 5)
      else false
    else if c = ampChar then
      if "amp;".data.isPrefixOf cs then scan .text d (cs.drop 4)
      else if "lt;".data.isPrefixOf cs then scan .text d (cs.drop 3)
      else if "gt;".data.isPrefixOf cs then scan .text d (cs.drop 3)
      else if "quot;".data.isPrefixOf cs then scan .text d (cs.drop 5)
      else if "#x27;".data.isPrefixOf cs then scan .text d (cs.drop 5)
      else false
    else if c = gtChar then false
    else scan .text d cs
  | .tag, _, [] => false
  | .tag, d, c :: cs =>
    if c = gtChar then scan .text d cs
    else if c = sqChar then scan .attr d cs
    else if c = ltChar then false
    else if c = ampChar then false
    else scan .tag d cs
  | .attr, _, [] => false
  | .attr, d, c :: cs =>
    if c = sqChar then scan .tag d cs
    else if c = ltChar then false
    else if c = gtChar then false
    else if c = ampChar then false
    else scan .attr d cs
  termination_by _ _ l => l.length
  decreasing_by all_goals (simp only [List.length_drop, List.length_cons]; omega)

/-- A markup string is well formed when the scanner accepts it. -/
def wellFormed (m : List Char) : Bool :=
  scan .text 0 m

/-- Characters that may appear verbatim inside a tag, an attribute value
or character data without affecting markup structure. -/
def okChar (c : Char) : Prop :=
  c ≠ ltChar ∧ c ≠ gtChar ∧ c ≠ ampChar ∧ c ≠ sqChar

instance (c : Char) : Decidable (okChar c) := by
  unfold okChar
  infer_instance

/-- All characters of a string are structurally harmless. -/
def okList (l : List Char) : Prop :=
  ∀ c ∈ l, okChar c

instance (l : List Char) : Decidable (okList l) := by
  unfold okList
  infer_instance

/-! ## Properties of `strFind` (Python `in` / `str.index`) -/

theorem strFind_prefix {p : List Char} :
    ∀ {s : List Char} {i : Nat}, strFind s p = some i → p <+: s.drop i := by
  intro s
  induction s with
  | nil =>
    intro i h
    rw [strFind] at h
    split at h
    · next hpre =>
      cases h
      simpa using List.isPrefixOf_iff_prefix.mp hpre
    · simp at h
  | cons c t ih =>
    intro i h
    rw [strFind] at h
    split at h
    · next hpre =>
      cases h
      simpa using List.isPrefixOf_iff_prefix.mp hpre
    · next hpre =>
      rcases Option.map_eq_some'.mp h with ⟨j, hj, rfl⟩
      simpa using ih hj

theorem strFind_min {p : List Char} :
    ∀ {s : List Char} {i : Nat}, strFind s p = some i →
      ∀ j, j < i → ¬ p <+: s.drop j := by
  intro s
  induction s with
  | nil =>
    intro i h j hj
    rw [strFind] at h
    split at h
    · cases h; omega
    · simp at h
  | cons c t ih =>
    intro i h j hj
    rw [strFind] at h
    split at h
    · cases h; omega
    · next hpre =>
      rcases Option.map_eq_some'.mp h with ⟨m, hm, rfl⟩
      match j with
      | 0 =>
        intro hcontra
        exact hpre (List.isPrefixOf_iff_prefix.mpr (by simpa using hcontra))
      | Nat.succ k =>
        simpa using ih hm k (by omega)

theorem strFind_none {p : List Char} :
    ∀ {s : List Char}, strFind s p = none → ¬ p <:+: s := by
  intro s
  induction s with
  | nil =>
    intro h hinf
    rw [strFind] at h
    split at h
    · simp at h
    · next hpre =>
      exact hpre (List.isPrefixOf_iff_prefix.mpr (List.infix_nil.mp hinf ▸ List.nil_prefix))
  | cons c t ih =>
    intro h hinf
    rw [strFind] at h
    split at h
    · simp at h
    · next hpre =>
      rcases List.infix_cons_iff.mp hinf with hc | hc
      · exact hpre (List.isPrefixOf_iff_prefix.mpr hc)
      · exact ih (by simpa using h) hc

theorem strFind_isSome {p s : List Char} (h : p <:+: s) :
    ∃ i, strFind s p = some i := by
  cases hf : strFind s p with
  | none => exact absurd h (strFind_none hf)
  | some i => exact ⟨i, rfl⟩

theorem strFind_reconstruct {p s : List Char} {i : Nat}
    (h : strFind s p = some i) :
    s.take i ++ p ++ s.drop (i + p.length) = s := by
  rcases strFind_prefix h with ⟨r, hr⟩
  have hdrop : s.drop (i + p.length) = r := by
    have h1 : (s.drop i).drop p.length = s.drop (i + p.length) := List.drop_drop p.length i s
    rw [← h1, ← hr, List.drop_left]
  rw [hdrop, List.append_assoc, hr, List.take_append_drop]

/-! ## Properties of `esc` / `unesc` (the `html.escape` round-trip) -/

theorem esc_append (a b : List Char) : esc (a ++ b) = esc a ++ esc b := by
  induction a with
  | nil => rfl
  | cons c t ih => simp [esc, ih]

theorem unesc_cons_of_ne_amp {c : Char} (h : c ≠ ampChar) (l : List Char) :
    unesc (c :: l) = c :: unesc l := by
  rw [unesc, if_neg h]

theorem unesc_entity_amp (r : List Char) :
    unesc ('&' :: 'a' :: 'm' :: 'p' :: ';' :: r) = ampChar :: unesc r := by
  rw [unesc]
  simp [ampChar, List.isPrefixOf]

theorem unesc_entity_lt (r : List Char) :
    unesc ('&' :: 'l' :: 't' :: ';' :: r) = ltChar :: unesc r := by
  rw [unesc]
  simp [ampChar, ltChar, List.isPrefixOf]

theorem unesc_entity_gt (r : List Char) :
    unesc ('&' :: 'g' :: 't' :: ';' :: r) = gtChar :: unesc r := by
  rw [unesc]
  simp [ampChar, gtChar, List.isPrefixOf]

theorem unesc_entity_quot (r : List Char) :
    unesc ('&' :: 'q' :: 'u' :: 'o' :: 't' :: ';' :: r) = dqChar :: unesc r := by
  rw [unesc]
  simp [ampChar, dqChar, List.isPrefixOf]

theorem unesc_entity_apos (r : List Char) :
    unesc ('&' :: '#' :: 'x' :: '2' :: '7' :: ';' :: r) = sqChar :: unesc r := by
  rw [unesc]
  simp [ampChar, List.isPrefixOf]

theorem unesc_esc (s : List Char) : unesc (esc s) = s := by
  induction s with
  | nil => rw [show esc [] = [] from rfl, unesc]
  | cons c t ih =>
    show unesc (escChar c ++ esc t) = c :: t
    rw [escChar]
    by_cases h1 : c = ampChar
    · subst h1
      rw [if_pos rfl]
      show unesc ('&' :: 'a' :: 'm' :: 'p' :: ';' :: esc t) = ampChar :: t
      rw [unesc_entity_amp, ih]
    rw [if_neg h1]
    by_cases h2 : c = ltChar
    · subst h2
      rw [if_pos rfl]
      show unesc ('&' :: 'l' :: 't' :: ';' :: esc t) = ltChar :: t
      rw [unesc_entity_lt, ih]
    rw [if_neg h2]
    by_cases h3 : c = gtChar
    · subst h3
      rw [if_pos rfl]
      show unesc ('&' :: 'g' :: 't' :: ';' :: esc t) = gtChar :: t
      rw [unesc_entity_gt, ih]
    rw [if_neg h3]
    by_cases h4 : c = dqChar
    · subst h4
      rw [if_pos rfl]
      show unesc ('&' :: 'q' :: 'u' :: 'o' :: 't' :: ';' :: esc t) = dqChar :: t
      rw [unesc_entity_quot, ih]
    rw [if_neg h4]
    by_cases h5 : c = sqChar
    · subst h5
      rw [if_pos rfl]
      show unesc ('&' :: '#' :: 'x' :: '2' :: '7' :: ';' :: esc t) = sqChar :: t
      rw [unesc_entity_apos, ih]
    rw [if_neg h5]
    show unesc (c :: esc t) = c :: t
    rw [unesc_cons_of_ne_amp h1, ih]

/-! ## Stepping lemmas for the markup scanner -/

theorem scanText_cons_safe {c : Char} (h1 : c ≠ ltChar) (h2 : c ≠ ampChar)
    (h3 : c ≠ gtChar) (d : Nat) (l : List Char) :
    scan .text d (c :: l) = scan .text d l := by
  conv_lhs => rw [scan.eq_def]
  simp only []
  rw [if_neg h1, if_neg h2, if_neg h3]

theorem scanTag_cons_safe {c : Char} (h : okChar c) (d : Nat) (l : List Char) :
    scan .tag d (c :: l) = scan .tag d l := by
  conv_lhs => rw [scan.eq_def]
  simp only []
  rw [if_neg h.2.1, if_neg h.2.2.2, if_neg h.1, if_neg h.2.2.1]

theorem scanAttr_cons_safe {c : Char} (h : okChar c) (d : Nat) (l : List Char) :
    scan .attr d (c :: l) = scan .attr d l := by
  conv_lhs => rw [scan.eq_def]
  simp only []
  rw [if_neg h.2.2.2, if_neg h.1, if_neg h.2.1, if_neg h.2.2.1]

theorem scanTag_sq (d : Nat) (l : List Char) :
    scan .tag d (sqChar :: l) = scan .attr d l := by
  conv_lhs => rw [scan.eq_def]
  simp only []
  rw [if_neg (by decide)]
  simp

theorem scanAttr_sq (d : Nat) (l : List Char) :
    scan .attr d (sqChar :: l) = scan .tag d l := by
  conv_lhs => rw [scan.eq_def]
  simp

theorem scanAttr_lt (d : Nat) (l : List Char) :
    scan .attr d (ltChar :: l) = false := by
  conv_lhs => rw [scan.eq_def]
  simp only []
  rw [if_neg (by decide)]
  simp

theorem scanTag_gt (d : Nat) (l : List Char) :
    scan .tag d (gtChar :: l) = scan .text d l := by
  conv_lhs => rw [scan.eq_def]
  simp

theorem scanText_open (d : Nat) (l : List Char) :
    scan .text d ("<span ".data ++ l) = scan .tag (d + 1) l := by
  conv_lhs => rw [scan.eq_def]
  simp [ltChar, List.isPrefixOf]

theorem scanText_close (d : Nat) (l : List Char) :
    scan .text (d + 1) ("</span>".data ++ l) = scan .text d l := by
  conv_lhs => rw [scan.eq_def]
  simp [ltChar, List.isPrefixOf]

theorem scanText_nil (d : Nat) : scan .text d [] = (d == 0) := by
  rw [scan.eq_def]

theorem scanText_escChar (c : Char) (d : Nat) (l : List Char) :
    scan .text d (escChar c ++ l) = scan .text d l := by
  rw [escChar]
  by_cases h1 : c = ampChar
  · rw [if_pos h1]
    conv_lhs => rw [scan.eq_def]
    simp [ltChar, ampChar, List.isPrefixOf]
  rw [if_neg h1]
  by_cases h2 : c = ltChar
  · rw [if_pos h2]
    conv_lhs => rw [scan.eq_def]
    simp [ltChar, ampChar, List.isPrefixOf]
  rw [if_neg h2]
  by_cases h3 : c = gtChar
  · rw [if_pos h3]
    conv_lhs => rw [scan.eq_def]
    simp [ltChar, ampChar, List.isPrefixOf]
  rw [if_neg h3]
  by_cases h4 : c = dqChar
  · rw [if_pos h4]
    conv_lhs => rw [scan.eq_def]
    simp [ltChar, ampChar, List.isPrefixOf]
  rw [if_neg h4]
  by_cases h5 : c = sqChar
  · rw [if_pos h5]
    conv_lhs => rw [scan.eq_def]
    simp [ltChar, ampChar, List.isPrefixOf]
  rw [if_neg h5]
  exact scanText_cons_safe h2 h1 h3 d l

theorem scanText_esc (s : List Char) (d : Nat) (l : List Char) :
    scan .text d (esc s ++ l) = scan .text d l := by
  induction s with
  | nil => rfl
  | cons c t ih =>
    show scan .text d ((escChar c ++ esc t) ++ l) = scan .text d l
    rw [List.append_assoc, scanText_escChar, ih]

theorem scanTag_append {ks : List Char} (h : okList ks) (d : Nat) (l : List Char) :
    scan .tag d (ks ++ l) = scan .tag d l := by
  induction ks with
  | nil => rfl
  | cons c t ih =>
    rw [List.cons_append, scanTag_cons_safe (h c (by simp)) d,
      ih (fun x hx => h x (by simp [hx]))]

theorem scanAttr_append {vs : List Char} (h : okList vs) (d : Nat) (l : List Char) :
    scan .attr d (vs ++ l) = scan .attr d l := by
  induction vs with
  | nil => rfl
  | cons c t ih =>
    rw [List.cons_append, scanAttr_cons_safe (h c (by simp)) d,
      ih (fun x hx => h x (by simp [hx]))]

theorem scanTag_renderAttr {k v : List Char} (hk : okList k) (hv : okList v)
    (d : Nat) (l : List Char) :
    scan .tag d (renderAttr k v ++ l) = scan .tag d l := by
  rw [renderAttr, List.append_assoc, scanTag_append hk, List.cons_append,
    scanTag_cons_safe (by decide) d, List.cons_append, scanTag_sq,
    List.append_assoc, scanAttr_append hv, List.singleton_append, scanAttr_sq]

/-! ## Safe character sets: digits, hex colors, attribute dictionaries -/

theorem digitChar_ok (d : Nat) : okChar (digitChar d) := by
  unfold digitChar
  split <;> decide

theorem digitsAux_ok (b : Nat) : ∀ fuel n, okList (digitsAux b fuel n) := by
  intro fuel
  induction fuel with
  | zero =>
    intro n c hc
    cases n with
    | zero =>
      simp only [digitsAux, List.mem_singleton] at hc
      exact hc ▸ digitChar_ok 0
    | succ m =>
      simp only [digitsAux, List.mem_singleton] at hc
      exact hc ▸ digitChar_ok _
  | succ f ih =>
    intro n c hc
    cases n with
    | zero =>
      simp only [digitsAux, List.mem_singleton] at hc
      exact hc ▸ digitChar_ok 0
    | succ m =>
      simp only [digitsAux] at hc
      by_cases hlt : m + 1 < b
      · rw [if_pos hlt] at hc
        simp only [List.mem_singleton] at hc
        exact hc ▸ digitChar_ok _
      · rw [if_neg hlt] at hc
        rcases List.mem_append.mp hc with h | h
        · exact ih _ c h
        · simp only [List.mem_singleton] at h
          exact h ▸ digitChar_ok _

theorem natDec_ok (n : Nat) : okList (natDec n) :=
  digitsAux_ok 10 n n

theorem natHex_ok (n : Nat) : okList (natHex n) :=
  digitsAux_ok 16 n n

theorem intDec_ok (i : Int) : okList (intDec i) := by
  rw [intDec]
  split
  · intro c hc
    rcases List.mem_cons.mp hc with h | h
    · exact h ▸ (by decide)
    · exact natDec_ok _ c h
  · exact natDec_ok _

theorem hexPad2_ok (n : Nat) : okList (hexPad2 n) := by
  rw [hexPad2]
  split
  · intro c hc
    rcases List.mem_cons.mp hc with h | h
    · exact h ▸ (by decide)
    · exact natHex_ok _ c h
  · exact natHex_ok _

theorem hexByte_ok (i : Int) : okList (hexByte i) := by
  rw [hexByte]
  split
  · intro c hc
    rcases List.mem_cons.mp hc with h | h
    · exact h ▸ (by decide)
    · exact natHex_ok _ c h
  · exact hexPad2_ok _

theorem rgb_to_hex_ok (rgb : ℚ × ℚ × ℚ) : okList (rgb_to_hex rgb) := by
  rw [rgb_to_hex]
  intro c hc
  rcases List.mem_cons.mp hc with h | h
  · exact h ▸ (by decide)
  · rcases List.mem_append.mp h with h2 | h2
    · rcases List.mem_append.mp h2 with h3 | h3
      · exact hexByte_ok _ c h3
      · exact hexByte_ok _ c h3
    · exact hexByte_ok _ c h2

/-- The pair-wise safety invariant on attribute dictionaries. -/
def okPairs (m : List (List Char × List Char)) : Prop :=
  ∀ kv ∈ m, okList kv.1 ∧ okList kv.2

instance (m : List (List Char × List Char)) : Decidable (okPairs m) := by
  unfold okPairs
  infer_instance

theorem setKey_okPairs {m : List (List Char × List Char)} (hm : okPairs m)
    {k v : List Char} (hv : okList v) : okPairs (setKey m k v) := by
  intro kv hkv
  rcases List.mem_map.mp hkv with ⟨kv0, hkv0, hmap⟩
  by_cases heq : kv0.1 == k
  · rw [if_pos heq] at hmap
    exact hmap ▸ ⟨(hm kv0 hkv0).1, hv⟩
  · rw [if_neg heq] at hmap
    exact hmap ▸ hm kv0 hkv0

theorem dictInsert_okPairs {m : List (List Char × List Char)} (hm : okPairs m)
    {k v : List Char} (hk : okList k) (hv : okList v) :
    okPairs (dictInsert m k v) := by
  rw [dictInsert]
  split
  · exact setKey_okPairs hm hv
  · intro kv hkv
    rcases List.mem_append.mp hkv with h | h
    · exact hm kv h
    · simp only [List.mem_singleton] at h
      exact h ▸ ⟨hk, hv⟩

theorem dictUpdate_okPairs {extra : List (List Char × List Char)}
    (hextra : okPairs extra) :
    ∀ {m : List (List Char × List Char)}, okPairs m →
      okPairs (dictUpdate m extra) := by
  induction extra with
  | nil => intro m hm; exact hm
  | cons kv rest ih =>
    intro m hm
    rw [dictUpdate, List.foldl_cons]
    exact ih (fun x hx => hextra x (by simp [hx]))
      (dictInsert_okPairs hm (hextra kv (by simp)).1 (hextra kv (by simp)).2)

theorem highlightAttrs_okPairs {extra : List (List Char × List Char)}
    (hextra : okPairs extra) (hc : ℚ × ℚ × ℚ) :
    okPairs (highlightAttrs extra hc) := by
  rw [highlightAttrs]
  refine dictUpdate_okPairs hextra ?_
  intro kv hkv
  simp only [List.mem_singleton] at hkv
  subst hkv
  constructor
  · show okList "foreground".data
    decide
  · show okList (rgb_to_hex hc)
    exact rgb_to_hex_ok hc

/-! ## Scanning a whole opening tag -/

theorem joinSep_cons_cons (sep x y : List Char) (t : List (List Char)) :
    joinSep sep (x :: y :: t) = x ++ sep ++ joinSep sep (y :: t) := rfl

theorem scanTag_attrs {attrs : List (List Char × List Char)}
    (h : okPairs attrs) (d : Nat) (l : List Char) :
    scan .tag d
      (joinSep [' '] (attrs.map (fun kv => renderAttr kv.1 kv.2)) ++ gtChar :: l) =
      scan .text d l := by
  induction attrs with
  | nil =>
    rw [List.map_nil, joinSep, List.nil_append, scanTag_gt]
  | cons kv rest ih =>
    cases rest with
    | nil =>
      rw [List.map_cons, List.map_nil, joinSep,
        scanTag_renderAttr (h kv (by simp)).1 (h kv (by simp)).2, scanTag_gt]
    | cons kv2 rest2 =>
      have ih2 := ih (fun x hx => h x (by simp [hx]))
      rw [List.map_cons] at ih2
      rw [List.map_cons, List.map_cons, joinSep_cons_cons, List.append_assoc,
        List.append_assoc, scanTag_renderAttr (h kv (by simp)).1 (h kv (by simp)).2,
        List.singleton_append, scanTag_cons_safe (show okChar ' ' by decide)]
      exact ih2

theorem scanText_highlight_open {extra : List (List Char × List Char)}
    (hextra : okPairs extra) (hc : ℚ × ℚ × ℚ) (d : Nat) (l : List Char) :
    scan .text d (highlight_open extra hc ++ l) = scan .text (d + 1) l := by
  rw [highlight_open, List.append_assoc, List.append_assoc, scanText_open,
    List.singleton_append, scanTag_attrs (highlightAttrs_okPairs hextra hc)]

theorem scanText_base_open (fs : ℚ) (d : Nat) (l : List Char) :
    scan .text d (base_span_open fs ++ l) = scan .text (d + 1) l := by
  rw [base_span_open]
  simp only [List.append_assoc]
  simp only [List.singleton_append]
  rw [scanText_open]
  rw [scanTag_renderAttr (show okList "font_family".data by decide)
    (show okList BASE_FONT_FAMILY by decide)]
  rw [scanTag_cons_safe (show okChar ' ' by decide)]
  rw [scanTag_renderAttr (show okList "size".data by decide) (intDec_ok _)]
  rw [scanTag_cons_safe (show okChar ' ' by decide)]
  rw [scanTag_renderAttr (show okList "foreground".data by decide) (rgb_to_hex_ok _)]
  rw [scanTag_gt]

/-- Any markup document of the shape produced by `make_markup` with
structurally harmless attribute pairs is accepted by the scanner. -/
theorem wellFormed_parts (fs : ℚ) (hc : ℚ × ℚ × ℚ)
    {extra : List (List Char × List Char)} (hextra : okPairs extra)
    (a b c : List Char) :
    wellFormed (base_span_open fs ++ esc a ++ highlight_open extra hc
      ++ esc b ++ "</span>".data ++ esc c ++ "</span>".data) = true := by
  rw [wellFormed]
  simp only [List.append_assoc]
  rw [scanText_base_open, scanText_esc, scanText_highlight_open hextra,
    scanText_esc, scanText_close, scanText_esc]
  show scan .text (0 + 1) ("</span>".data ++ []) = true
  rw [scanText_close, scanText_nil]
  rfl

/-! ## Unfolding `make_markup` -/

theorem make_markup_eq_ok {sentence phrase : List Char} {i : Nat}
    (h : strFind sentence phrase = some i)
    (extra : List (List Char × List Char)) (hc : Option (ℚ × ℚ × ℚ))
    (fs : Option ℚ) :
    make_markup sentence phrase extra hc fs =
      .ok (base_span_open (fs.getD BASE_FONT_SIZE_PT)
        ++ esc (sentence.take i)
        ++ highlight_open extra (hc.getD DEFAULT_HIGHLIGHT_COLOR)
        ++ esc phrase
        ++ "</span>".data
        ++ esc (sentence.drop (i + phrase.length))
        ++ "</span>".data) := by
  simp only [make_markup, h]

theorem make_markup_eq_error {sentence phrase : List Char}
    (h : strFind sentence phrase = none)
    (extra : List (List Char × List Char)) (hc : Option (ℚ × ℚ × ℚ))
    (fs : Option ℚ) :
    make_markup sentence phrase extra hc fs =
      .error "highlight phrase not found in sentence".data := by
  simp only [make_markup, h]

theorem infix_of_strFind_some {p s : List Char} {i : Nat}
    (h : strFind s p = some i) : p <:+: s :=
  List.infix_iff_prefix_suffix.mpr ⟨s.drop i, strFind_prefix h, List.drop_suffix i s⟩

/-! ## Concrete color evaluations -/

theorem rgb_hex_text_color : rgb_to_hex TEXT_COLOR = "#ffffff".data := by
  with_unfolding_all decide

theorem rgb_hex_default_highlight :
    rgb_to_hex DEFAULT_HIGHLIGHT_COLOR = "#7fffff".data := by
  with_unfolding_all decide

/-! ## The claims -/

/-- C1: for every sentence and phrase with phrase a substring of sentence,
`make_markup` returns exactly the concatenation open-base-span +
escape(prefix) + open-highlight-span + escape(phrase) + close + escape
(suffix) + close, where the start offset is the offset of the first
occurrence of the phrase (and the end offset is start plus the phrase
length); the single highlighted run unescapes back to the phrase. -/
theorem claim1_first_occurrence_markup (sentence phrase : List Char)
    (extra : List (List Char × List Char)) (hc : Option (ℚ × ℚ × ℚ))
    (fs : Option ℚ) (h : phrase <:+: sentence) :
    ∃ start,
      phrase <+: sentence.drop start ∧
      (∀ j, j < start → ¬ phrase <+: sentence.drop j) ∧
      make_markup sentence phrase extra hc fs =
        .ok (base_span_open (fs.getD BASE_FONT_SIZE_PT)
          ++ esc (sentence.take start)
          ++ highlight_open extra (hc.getD DEFAULT_HIGHLIGHT_COLOR)
          ++ esc phrase
          ++ "</span>".data
          ++ esc (sentence.drop (start + phrase.length))
          ++ "</span>".data) ∧
      unesc (esc phrase) = phrase := by
  obtain ⟨i, hi⟩ := strFind_isSome h
  exact ⟨i, strFind_prefix hi, strFind_min hi,
    make_markup_eq_ok hi extra hc fs, unesc_esc phrase⟩

/-- C1 witness: the theorem applied to a concrete sentence and phrase. -/
theorem claim1_witness :
    ∃ start,
      "b".data <+: "ab".data.drop start ∧
      (∀ j, j < start → ¬ "b".data <+: "ab".data.drop j) ∧
      make_markup "ab".data "b".data [] none none =
        .ok (base_span_open ((none : Option ℚ).getD BASE_FONT_SIZE_PT)
          ++ esc ("ab".data.take start)
          ++ highlight_open [] ((none : Option (ℚ × ℚ × ℚ)).getD DEFAULT_HIGHLIGHT_COLOR)
          ++ esc "b".data
          ++ "</span>".data
          ++ esc ("ab".data.drop (start + "b".data.length))
          ++ "</span>".data) ∧
      unesc (esc "b".data) = "b".data :=
  claim1_first_occurrence_markup "ab".data "b".data [] none none (by decide)

/-- C5: `make_markup` fails with the phrase-not-found error exactly when
the phrase is not a substring of the sentence, and in that case it is an
`Except.error`, so no markup output exists. -/
theorem claim5_phrase_not_found (sentence phrase : List Char)
    (extra : List (List Char × List Char)) (hc : Option (ℚ × ℚ × ℚ))
    (fs : Option ℚ) :
    make_markup sentence phrase extra hc fs =
      .error "highlight phrase not found in sentence".data ↔
    ¬ phrase <:+: sentence := by
  constructor
  · intro h hinf
    obtain ⟨i, hi⟩ := strFind_isSome hinf
    rw [make_markup_eq_ok hi extra hc fs] at h
    exact Except.noConfusion h
  · intro h
    cases hf : strFind sentence phrase with
    | none => exact make_markup_eq_error hf extra hc fs
    | some i => exact absurd (infix_of_strFind_some hf) h

/-- C6: stripping the tags of the produced markup leaves three escaped
runs whose concatenation unescapes to the original sentence exactly, also
in the presence of markup-sensitive characters (escaping is applied once,
never twice). -/
theorem claim6_escape_roundtrip (sentence phrase : List Char)
    (extra : List (List Char × List Char)) (hc : Option (ℚ × ℚ × ℚ))
    (fs : Option ℚ) (h : phrase <:+: sentence) :
    ∃ r1 r2 r3,
      make_markup sentence phrase extra hc fs =
        .ok (base_span_open (fs.getD BASE_FONT_SIZE_PT)
          ++ r1
          ++ highlight_open extra (hc.getD DEFAULT_HIGHLIGHT_COLOR)
          ++ r2
          ++ "</span>".data
          ++ r3
          ++ "</span>".data) ∧
      unesc (r1 ++ r2 ++ r3) = sentence := by
  obtain ⟨i, hi⟩ := strFind_isSome h
  refine ⟨esc (sentence.take i), esc phrase,
    esc (sentence.drop (i + phrase.length)),
    make_markup_eq_ok hi extra hc fs, ?_⟩
  rw [← esc_append, ← esc_append, unesc_esc]
  exact strFind_reconstruct hi

/-- C6 witness: the theorem applied to a sentence containing every
markup-sensitive character. -/
theorem claim6_witness :
    ∃ r1 r2 r3,
      make_markup "a&b<c>d\"e".data "&b<".data [] none none =
        .ok (base_span_open ((none : Option ℚ).getD BASE_FONT_SIZE_PT)
          ++ r1
          ++ highlight_open [] ((none : Option (ℚ × ℚ × ℚ)).getD DEFAULT_HIGHLIGHT_COLOR)
          ++ r2
          ++ "</span>".data
          ++ r3
          ++ "</span>".data) ∧
      unesc (r1 ++ r2 ++ r3) = "a&b<c>d\"e".data :=
  claim6_escape_roundtrip "a&b<c>d\"e".data "&b<".data [] none none (by decide)

/-- C9 counterexample: a caller-supplied override attribute value is
interpolated into the highlight opening tag verbatim, without escaping,
so the value `x<y` produces markup that the well-formedness scanner
rejects, refuting the claim that override attribute values are escaped
and the output is always well formed. -/
theorem claim9_counterexample :
    (make_markup "ab".data "a".data [("weight".data, "x<y".data)] none none).toOption.map
      wellFormed = some false := by
  rw [make_markup_eq_ok (show strFind "ab".data "a".data = some 0 by decide)]
  show some (wellFormed _) = some false
  congr 1
  rw [show esc ("ab".data.take 0) = [] from by decide,
    show esc "a".data = "a".data from by decide,
    show esc ("ab".data.drop (0 + "a".data.length)) = "b".data from by decide,
    show (none : Option ℚ).getD BASE_FONT_SIZE_PT = BASE_FONT_SIZE_PT from rfl,
    show (none : Option (ℚ × ℚ × ℚ)).getD DEFAULT_HIGHLIGHT_COLOR =
      DEFAULT_HIGHLIGHT_COLOR from rfl]
  have hattrs : highlightAttrs [("weight".data, "x<y".data)] DEFAULT_HIGHLIGHT_COLOR =
      [("foreground".data, "#7fffff".data), ("weight".data, "x<y".data)] := by
    rw [highlightAttrs, rgb_hex_default_highlight]
    decide
  rw [wellFormed, highlight_open, hattrs]
  rw [List.map_cons, List.map_cons, List.map_nil, joinSep_cons_cons,
    show joinSep [' '] [renderAttr "weight".data "x<y".data] =
      renderAttr "weight".data "x<y".data from rfl]
  simp only [List.append_assoc, List.append_nil, List.nil_append]
  rw [scanText_base_open]
  simp only [List.singleton_append]
  rw [scanText_open]
  rw [scanTag_renderAttr (show okList "foreground".data by decide)
    (show okList "#7fffff".data by decide)]
  rw [scanTag_cons_safe (show okChar ' ' by decide)]
  rw [renderAttr]
  simp only [List.append_assoc, List.cons_append, List.nil_append]
  rw [scanTag_cons_safe (show okChar 'w' by decide),
    scanTag_cons_safe (show okChar 'e' by decide),
    scanTag_cons_safe (show okChar 'i' by decide),
    scanTag_cons_safe (show okChar 'g' by decide),
    scanTag_cons_safe (show okChar 'h' by decide),
    scanTag_cons_safe (show okChar 't' by decide),
    scanTag_cons_safe (show okChar '=' by decide),
    scanTag_sq,
    scanAttr_cons_safe (show okChar 'x' by decide),
    show ('<' : Char) = ltChar from rfl,
    scanAttr_lt]

/-- C9 amended: for phrase a substring of sentence and caller-supplied
override attribute keys and values containing no markup-structural
characters (`<`, `>`, `&`, apostrophe), the produced markup is well
formed (balanced span tags, escaped character data, quoted attribute
values).  Override values are interpolated verbatim, so values containing
such characters break well-formedness (see the counterexample). -/
theorem claim9_wellformed_safe_overrides (sentence phrase : List Char)
    (extra : List (List Char × List Char)) (hc : Option (ℚ × ℚ × ℚ))
    (fs : Option ℚ) (h : phrase <:+: sentence) (hextra : okPairs extra) :
    ∃ m, make_markup sentence phrase extra hc fs = .ok m ∧
      wellFormed m = true := by
  obtain ⟨i, hi⟩ := strFind_isSome h
  exact ⟨_, make_markup_eq_ok hi extra hc fs,
    wellFormed_parts (fs.getD BASE_FONT_SIZE_PT)
      (hc.getD DEFAULT_HIGHLIGHT_COLOR) hextra _ _ _⟩

/-- C9 witness: the amended theorem applied to a concrete sentence,
phrase and a safe override pair. -/
theorem claim9_witness :
    ∃ m, make_markup "a&b".data "a".data [("weight".data, "bold".data)] none none =
      .ok m ∧ wellFormed m = true :=
  claim9_wellformed_safe_overrides "a&b".data "a".data
    [("weight".data, "bold".data)] none none (by decide) (by decide)

/-! ## Color conversion facts (C2) -/

theorem hexByte_pyTrunc_nonneg {c : ℚ} (hc : 0 ≤ c) :
    hexByte (pyTrunc (c * 255)) = hexPad2 ⌊c * 255⌋.toNat := by
  rw [pyTrunc, if_pos (by positivity)]
  rw [show (c * 255).floor = ⌊c * 255⌋ from rfl]
  rw [hexByte, if_neg (by simp [Int.floor_nonneg]; positivity)]

theorem floor_div_255_close (c : ℚ) : |(⌊c * 255⌋ : ℚ) / 255 - c| ≤ 1 / 255 := by
  have h1 : ((⌊c * 255⌋ : ℤ) : ℚ) ≤ c * 255 := Int.floor_le _
  have h2 : c * 255 - 1 < ((⌊c * 255⌋ : ℤ) : ℚ) := Int.sub_one_lt_floor _
  rw [abs_le]
  constructor
  · linarith
  · linarith

/-- C2 counterexample: the code truncates `channel × 255` with `int` while
the claim says it rounds; at channel 1/2 the byte 127 (`7f`) differs from
the rounded byte 128 (`80`). -/
theorem claim2_counterexample :
    rgb_to_hex (1/2, 0, 0) = "#7f0000".data ∧
    rgbToHexRound (1/2, 0, 0) = "#800000".data ∧
    rgb_to_hex (1/2, 0, 0) ≠ rgbToHexRound (1/2, 0, 0) := by
  refine ⟨?_, ?_, ?_⟩ <;> with_unfolding_all decide

/-- C2 amended: for normalized channels in `[0,1]`, `rgb_to_hex` yields
`#` followed by three zero-padded two-digit hex bytes obtained by
truncation (`⌊channel × 255⌋`, not rounding); the stated concrete values
`#ff0000` and `#000000` hold, and mapping each byte back to `byte/255`
lands within `1/255` of the original channel. -/
theorem claim2_truncation_hex (r g b : ℚ)
    (hr0 : 0 ≤ r) (hr1 : r ≤ 1) (hg0 : 0 ≤ g) (hg1 : g ≤ 1)
    (hb0 : 0 ≤ b) (hb1 : b ≤ 1) :
    rgb_to_hex (r, g, b) =
      '#' :: (hexPad2 ⌊r * 255⌋.toNat ++ hexPad2 ⌊g * 255⌋.toNat
        ++ hexPad2 ⌊b * 255⌋.toNat) ∧
    |(⌊r * 255⌋ : ℚ) / 255 - r| ≤ 1 / 255 ∧
    |(⌊g * 255⌋ : ℚ) / 255 - g| ≤ 1 / 255 ∧
    |(⌊b * 255⌋ : ℚ) / 255 - b| ≤ 1 / 255 ∧
    rgb_to_hex (1, 0, 0) = "#ff0000".data ∧
    rgb_to_hex (0, 0, 0) = "#000000".data := by
  refine ⟨?_, floor_div_255_close r, floor_div_255_close g, floor_div_255_close b,
    by with_unfolding_all decide, by with_unfolding_all decide⟩
  show '#' :: (hexByte (pyTrunc (r * 255)) ++ hexByte (pyTrunc (g * 255))
    ++ hexByte (pyTrunc (b * 255))) = _
  rw [hexByte_pyTrunc_nonneg hr0, hexByte_pyTrunc_nonneg hg0,
    hexByte_pyTrunc_nonneg hb0]

/-- C2 witness: the amended theorem applied at the channel triple
(1/2, 0, 1). -/
theorem claim2_witness :
    rgb_to_hex (1/2, 0, 1) =
      '#' :: (hexPad2 ⌊(1/2 : ℚ) * 255⌋.toNat ++ hexPad2 ⌊(0 : ℚ) * 255⌋.toNat
        ++ hexPad2 ⌊(1 : ℚ) * 255⌋.toNat) ∧
    |(⌊(1/2 : ℚ) * 255⌋ : ℚ) / 255 - 1/2| ≤ 1 / 255 ∧
    |(⌊(0 : ℚ) * 255⌋ : ℚ) / 255 - 0| ≤ 1 / 255 ∧
    |(⌊(1 : ℚ) * 255⌋ : ℚ) / 255 - 1| ≤ 1 / 255 ∧
    rgb_to_hex (1, 0, 0) = "#ff0000".data ∧
    rgb_to_hex (0, 0, 0) = "#000000".data :=
  claim2_truncation_hex (1/2) 0 1
    (by with_unfolding_all decide) (by with_unfolding_all decide)
    (by with_unfolding_all decide) (by with_unfolding_all decide)
    (by with_unfolding_all decide) (by with_unfolding_all decide)

/-! ## Pipeline claims -/

/-- C3: the codec element of the synthesized argument list (position 11,
the value following the `-c:v` flag) obeys the two-rule policy: alias
resolution of `vp9alpha` to `libvpx-vp9` first and regardless of the
hardware flag, then hardware substitution to `hevc_videotoolbox` only if
the resolved name still equals the software default `libx265`; with codec
omitted, the hardware flag picks `hevc_videotoolbox`, without it
`libx265` appears. -/
theorem claim3_codec_selection :
    (∀ cfg : VideoConfig,
      (build_ffmpeg_command cfg).get? 11 = some (specCodecRule cfg)) ∧
    "hevc_videotoolbox".data ∈ build_ffmpeg_command (cfgDemo true) ∧
    "libx265".data ∈ build_ffmpeg_command (cfgDemo false) := by
  refine ⟨fun cfg => rfl, ?_, ?_⟩
  · exact List.get?_mem (show (build_ffmpeg_command (cfgDemo true)).get? 11 =
      some "hevc_videotoolbox".data by decide)
  · exact List.get?_mem (show (build_ffmpeg_command (cfgDemo false)).get? 11 =
      some "libx265".data by decide)

/-- C4: for arbitrary positive total duration, fade-out duration and
frame rate, the fade-out start offset embedded in the filter-graph string
(argument position 9) is exactly `duration - fade_out - 1/fps`. -/
theorem claim4_fade_out_offset (cfg : VideoConfig) (d fo f : ℚ)
    (hd : cfg.total_duration = some d) (hfo : cfg.fade_out_duration = some fo)
    (hf : cfg.fps = some f) (hd0 : 0 < d) (hfo0 : 0 < fo) (hf0 : 0 < f) :
    (build_ffmpeg_command cfg).get? 9 = some (joinSep ",".data
      ["scale=".data ++ optIntStr cfg.width ++ ":".data ++ optIntStr cfg.height,
       "fade=t=in:st=0:d=".data ++ fmtQ (cfg.fade_in_duration.getD 1.5)
         ++ ":alpha=1".data,
       "fade=t=out:st=".data ++ fmtQ (d - fo - 1 / f) ++ ":d=".data
         ++ fmtQ fo ++ ":alpha=1".data]) := by
  simp only [build_ffmpeg_command, hd, hfo, hf, Option.getD_some]
  rfl

/-- C4 witness: the theorem applied to the concrete demo configuration. -/
theorem claim4_witness :
    (build_ffmpeg_command (cfgDemo false)).get? 9 = some (joinSep ",".data
      ["scale=".data ++ optIntStr (cfgDemo false).width ++ ":".data
         ++ optIntStr (cfgDemo false).height,
       "fade=t=in:st=0:d=".data ++ fmtQ ((cfgDemo false).fade_in_duration.getD 1.5)
         ++ ":alpha=1".data,
       "fade=t=out:st=".data ++ fmtQ (1 - 1/10 - 1 / 30) ++ ":d=".data
         ++ fmtQ (1/10) ++ ":alpha=1".data]) :=
  claim4_fade_out_offset (cfgDemo false) 1 (1/10) 30 rfl rfl rfl
    (by with_unfolding_all decide) (by with_unfolding_all decide)
    (by with_unfolding_all decide)

/-- C7: for every configuration the filter-graph string (argument
position 9) is the comma-join of exactly three entries in this order:
the scale entry, the fade-in entry and the fade-out entry, so the scale
entry precedes both fades. -/
theorem claim7_filtergraph_order (cfg : VideoConfig) :
    (build_ffmpeg_command cfg).get? 9 = some (joinSep ",".data
      ["scale=".data ++ optIntStr cfg.width ++ ":".data ++ optIntStr cfg.height,
       "fade=t=in:st=0:d=".data ++ fmtQ (cfg.fade_in_duration.getD 1.5)
         ++ ":alpha=1".data,
       "fade=t=out:st=".data
         ++ fmtQ (cfg.total_duration.getD 10 - cfg.fade_out_duration.getD 1.5
           - 1 / cfg.fps.getD 30)
         ++ ":d=".data ++ fmtQ (cfg.fade_out_duration.getD 1.5)
         ++ ":alpha=1".data]) :=
  rfl

/-- C8: when the fade durations together exceed the total duration the
command builder does not reject the configuration: it still returns the
complete 17-element argument list and the fade-out start offset in the
filter string is the unclamped value `duration - fade_out - 1/fps`. -/
theorem claim8_overlong_fades_tolerated (cfg : VideoConfig)
    (h : cfg.total_duration.getD 10 <
      cfg.fade_in_duration.getD 1.5 + cfg.fade_out_duration.getD 1.5) :
    (build_ffmpeg_command cfg).length = 17 ∧
    (build_ffmpeg_command cfg).get? 9 = some (joinSep ",".data
      ["scale=".data ++ optIntStr cfg.width ++ ":".data ++ optIntStr cfg.height,
       "fade=t=in:st=0:d=".data ++ fmtQ (cfg.fade_in_duration.getD 1.5)
         ++ ":alpha=1".data,
       "fade=t=out:st=".data
         ++ fmtQ (cfg.total_duration.getD 10 - cfg.fade_out_duration.getD 1.5
           - 1 / cfg.fps.getD 30)
         ++ ":d=".data ++ fmtQ (cfg.fade_out_duration.getD 1.5)
         ++ ":alpha=1".data]) :=
  ⟨rfl, rfl⟩

/-- C8 witness: the theorem applied to `cfgOverlong` (1 second total,
6 + 6 seconds of fades), where the resulting offset is in fact
negative. -/
theorem claim8_witness :
    (cfgOverlong.total_duration.getD 10 <
      cfgOverlong.fade_in_duration.getD 1.5 + cfgOverlong.fade_out_duration.getD 1.5) ∧
    ((build_ffmpeg_command cfgOverlong).length = 17 ∧
     (build_ffmpeg_command cfgOverlong).get? 9 = some (joinSep ",".data
      ["scale=".data ++ optIntStr cfgOverlong.width ++ ":".data
         ++ optIntStr cfgOverlong.height,
       "fade=t=in:st=0:d=".data ++ fmtQ (cfgOverlong.fade_in_duration.getD 1.5)
         ++ ":alpha=1".data,
       "fade=t=out:st=".data
         ++ fmtQ (cfgOverlong.total_duration.getD 10
           - cfgOverlong.fade_out_duration.getD 1.5 - 1 / cfgOverlong.fps.getD 30)
         ++ ":d=".data ++ fmtQ (cfgOverlong.fade_out_duration.getD 1.5)
         ++ ":alpha=1".data])) ∧
    cfgOverlong.total_duration.getD 10 - cfgOverlong.fade_out_duration.getD 1.5
      - 1 / cfgOverlong.fps.getD 30 < 0 :=
  ⟨by with_unfolding_all decide,
   claim8_overlong_fades_tolerated cfgOverlong (by with_unfolding_all decide),
   by with_unfolding_all decide⟩

/-- C10: the argument list is independent of the easing configuration:
two configurations differing only in `easing_in`/`easing_out` (including
unknown names) produce the identical argument list — the mapped easing
identifiers are computed but never used. -/
theorem claim10_easing_independent (cfg : VideoConfig)
    (e1 e2 : Option (List Char)) :
    build_ffmpeg_command { cfg with easing_in := e1, easing_out := e2 } =
      build_ffmpeg_command cfg :=
  rfl

end Demo
